import Mathlib

/-!
Verification development for the Baileys core (multi-device WhatsApp client
library). The definitions below are a shallow embedding of the TypeScript
sources in `src/`:

* `src/src/Utils/signal.ts` — pre-key generation and device extraction,
* `src/src/Socket/messages-send.ts` — `relayMessage` fanout, sender-key memory,
  participant node creation,
* `src/src/Socket/socket.ts` — `end` and the QR pairing rotation,
* the chats socket (`src/unnamed/part_001`) — the `resyncAppState` catch branch.

JS numbers that only ever hold integer ids are embedded as `Int` (pre-key
counters) or `Nat` (device ids, timers); JS objects used as string-keyed maps
are embedded as association lists with last-write-wins update; JS `Set` is a
list with full-filter removal. Opaque collaborators (SignalRepository
encryption, Curve key generation, base64 of key bytes) are oracle parameters:
only the data the claims inspect (ciphertext type tags, opaque strings) is
kept.
-/

/-- Ciphertext kinds returned by `signalRepository.encryptMessage`. -/
inductive EncType where
  | pkmsg
  | msg
deriving DecidableEq, Repr

/-- Wire name of a ciphertext kind, as used for the `type` attribute. -/
def encTypeName : EncType → String
  | .pkmsg => "pkmsg"
  | .msg => "msg"

/-- Modelled from the spec: a JID (the WABinary codec is not under `src/`).
The spec's data model §3 gives `JID = {user, server, device?}` with the
encoded form `user@server[:device]`; we keep the structured record and treat
`jidEncode`/`jidDecode` as the identity on it, so `jidDecode j` is field
access on `j`. -/
structure EncJid where
  user : String
  server : String
  device : Option Nat
deriving DecidableEq, Repr

/-- Modelled from the spec: `jidEncode(user, server, device)` from WABinary. -/
def jidEncode (user server : String) (device : Option Nat) : EncJid :=
  ⟨user, server, device⟩

/-- `JidWithDevice` from the source's types: `{user, device?}`. -/
structure JidWithDevice where
  user : String
  device : Option Nat
deriving DecidableEq, Repr

/-! ## Pre-key arithmetic (`src/src/Utils/signal.ts`) -/

/-- The two pre-key counters of `AuthenticationCreds` that
`generateOrGetPreKeys` and `getNextPreKeys` read and update. -/
structure AuthenticationCreds where
  nextPreKeyId : Int
  firstUnuploadedPreKeyId : Int
deriving DecidableEq, Repr

/-- Result of `generateOrGetPreKeys`. The generated key pairs themselves come
from the external `Curve.generateKeyPair`; only the ids they are generated for
are kept (`newPreKeyIds` is the key set of the source's `newPreKeys` map). -/
structure PreKeysResult where
  newPreKeyIds : List Int
  lastPreKeyId : Int
  preKeysRange : Int × Int
deriving DecidableEq, Repr

/-- `generateOrGetPreKeys(creds, range)` from `signal.ts` lines 27–43
(the source's spelling `avaliable` is kept). -/
def generateOrGetPreKeys (creds : AuthenticationCreds) (range : Int) : PreKeysResult :=
  let avaliable := creds.nextPreKeyId - creds.firstUnuploadedPreKeyId
  let remaining := range - avaliable
  let lastPreKeyId := creds.nextPreKeyId + remaining - 1
  let newPreKeyIds :=
    if remaining > 0 then
      (List.range remaining.toNat).map (fun (i : Nat) => creds.nextPreKeyId + (i : Int))
    else []
  { newPreKeyIds := newPreKeyIds
    lastPreKeyId := lastPreKeyId
    preKeysRange := (creds.firstUnuploadedPreKeyId, range) }

/-- The creds update computed by `getNextPreKeys` (`signal.ts` lines 141–154):
`nextPreKeyId := max(lastPreKeyId + 1, nextPreKeyId)` and
`firstUnuploadedPreKeyId := max(firstUnuploadedPreKeyId, lastPreKeyId + 1)`.
The store write of the new key pairs and the read-back of the uploaded range
are key-store effects that carry no further arithmetic. -/
def getNextPreKeysUpdate (creds : AuthenticationCreds) (count : Int) : AuthenticationCreds :=
  let r := generateOrGetPreKeys creds count
  { nextPreKeyId := max (r.lastPreKeyId + 1) creds.nextPreKeyId
    firstUnuploadedPreKeyId := max creds.firstUnuploadedPreKeyId (r.lastPreKeyId + 1) }

/-- Membership in a list of consecutive integers starting at `b`. -/
theorem mem_range_map_add (b : Int) (n : Nat) (i : Int) :
    i ∈ (List.range n).map (fun (k : Nat) => b + (k : Int)) ↔ b ≤ i ∧ i < b + n := by
  rw [List.mem_map]
  constructor
  · rintro ⟨k, hk, rfl⟩
    rw [List.mem_range] at hk
    omega
  · rintro ⟨h1, h2⟩
    refine ⟨(i - b).toNat, ?_, ?_⟩
    · rw [List.mem_range]
      omega
    · omega

/-- C6: for every creds record and requested `range ≥ 1`,
`generateOrGetPreKeys` returns `lastPreKeyId = firstUnuploadedPreKeyId + range - 1`
and `preKeysRange = (firstUnuploadedPreKeyId, range)`, generates key pairs
exactly for the ids `nextPreKeyId .. lastPreKeyId` (none when that interval is
empty), and the post-upload update persists
`firstUnuploadedPreKeyId := max(firstUnuploadedPreKeyId, lastPreKeyId + 1)`. -/
theorem generateOrGetPreKeys_dense_range (creds : AuthenticationCreds) (range : Int)
    (hrange : 1 ≤ range) :
    (generateOrGetPreKeys creds range).lastPreKeyId
        = creds.firstUnuploadedPreKeyId + range - 1
      ∧ (generateOrGetPreKeys creds range).preKeysRange
        = (creds.firstUnuploadedPreKeyId, range)
      ∧ (∀ i : Int, i ∈ (generateOrGetPreKeys creds range).newPreKeyIds
          ↔ creds.nextPreKeyId ≤ i ∧ i ≤ (generateOrGetPreKeys creds range).lastPreKeyId)
      ∧ (getNextPreKeysUpdate creds range).firstUnuploadedPreKeyId
        = max creds.firstUnuploadedPreKeyId ((generateOrGetPreKeys creds range).lastPreKeyId + 1) := by
  refine ⟨?_, rfl, ?_, rfl⟩
  · simp only [generateOrGetPreKeys]
    ring
  · intro i
    simp only [generateOrGetPreKeys]
    by_cases hrem : range - (creds.nextPreKeyId - creds.firstUnuploadedPreKeyId) > 0
    · rw [if_pos hrem, mem_range_map_add]
      omega
    · rw [if_neg hrem]
      simp only [List.not_mem_nil, false_iff, not_and, not_le]
      omega

/-- Witness for `generateOrGetPreKeys_dense_range` at creds (17, 12), range 7. -/
theorem generateOrGetPreKeys_dense_range_witness :
    (1 : Int) ≤ 7
      ∧ ((generateOrGetPreKeys ⟨17, 12⟩ 7).lastPreKeyId = (12 : Int) + 7 - 1
        ∧ (generateOrGetPreKeys ⟨17, 12⟩ 7).preKeysRange = ((12 : Int), 7)
        ∧ (∀ i : Int, i ∈ (generateOrGetPreKeys ⟨17, 12⟩ 7).newPreKeyIds
            ↔ (17 : Int) ≤ i ∧ i ≤ (generateOrGetPreKeys ⟨17, 12⟩ 7).lastPreKeyId)
        ∧ (getNextPreKeysUpdate ⟨17, 12⟩ 7).firstUnuploadedPreKeyId
          = max (12 : Int) ((generateOrGetPreKeys ⟨17, 12⟩ 7).lastPreKeyId + 1)) :=
  ⟨by norm_num, generateOrGetPreKeys_dense_range ⟨17, 12⟩ 7 (by norm_num)⟩

/-- C7: the invariant `firstUnuploadedPreKeyId ≤ nextPreKeyId` is preserved by
the pre-key counter update of `getNextPreKeys`. -/
theorem prekey_counter_invariant (creds : AuthenticationCreds) (count : Int)
    (hinv : creds.firstUnuploadedPreKeyId ≤ creds.nextPreKeyId) (hcount : 1 ≤ count) :
    (getNextPreKeysUpdate creds count).firstUnuploadedPreKeyId
      ≤ (getNextPreKeysUpdate creds count).nextPreKeyId := by
  simp only [getNextPreKeysUpdate]
  exact max_le (hinv.trans (le_max_right _ _)) (le_max_left _ _)

/-- Witness for `prekey_counter_invariant` at creds (30, 8), count 50. -/
theorem prekey_counter_invariant_witness :
    ((8 : Int) ≤ 30 ∧ (1 : Int) ≤ 50)
      ∧ (getNextPreKeysUpdate ⟨30, 8⟩ 50).firstUnuploadedPreKeyId
        ≤ (getNextPreKeysUpdate ⟨30, 8⟩ 50).nextPreKeyId :=
  ⟨⟨by norm_num, by norm_num⟩, prekey_counter_invariant ⟨30, 8⟩ 50 (by norm_num) (by norm_num)⟩

/-! ## Association-list maps (JS objects used as string-keyed maps) -/

/-- Lookup in a JS-object-style map: the value of the first entry whose key
matches (keys are unique after `assocSet`). -/
def assocLookup {α : Type} (l : List (String × α)) (k : String) : Option α :=
  (l.find? (fun p => p.1 == k)).map (·.2)

/-- `obj[k] = v` on a JS-object-style map: replace any entry for `k` by the
new binding (lookup observes last-write-wins, as for a JS object). -/
def assocSet {α : Type} (l : List (String × α)) (k : String) (v : α) : List (String × α) :=
  l.filter (fun p => p.1 != k) ++ [(k, v)]

theorem find?_append_of_none {α : Type} {p : α → Bool} {l₁ l₂ : List α}
    (h : l₁.find? p = none) : (l₁ ++ l₂).find? p = l₂.find? p := by
  induction l₁ with
  | nil => simp
  | cons a t ih =>
    by_cases hpa : p a
    · simp [List.find?_cons, hpa] at h
    · simp only [List.find?_cons, hpa] at h
      simp only [List.cons_append, List.find?_cons, hpa]
      exact ih h

theorem find?_filter_ne_eq_none {α : Type} (l : List (String × α)) (k : String) :
    (l.filter (fun p => p.1 != k)).find? (fun p => p.1 == k) = none := by
  induction l with
  | nil => simp
  | cons a t ih =>
    by_cases hk : a.1 == k
    · simp only [List.filter_cons]
      simp only [bne, hk, Bool.not_true, Bool.false_eq_true, if_false]
      exact ih
    · simp only [List.filter_cons]
      simp only [bne, hk, Bool.not_false, if_true, List.find?_cons, hk]
      exact ih

theorem assocLookup_set_self {α : Type} (l : List (String × α)) (k : String) (v : α) :
    assocLookup (assocSet l k v) k = some v := by
  unfold assocLookup assocSet
  rw [find?_append_of_none (find?_filter_ne_eq_none l k)]
  simp [List.find?_cons]

theorem assocLookup_set_ne {α : Type} (l : List (String × α)) (k k' : String) (v : α)
    (h : k' ≠ k) : assocLookup (assocSet l k v) k' = assocLookup l k' := by
  unfold assocLookup assocSet
  have hkk : (k == k') = false := beq_eq_false_iff_ne.mpr (Ne.symm h)
  induction l with
  | nil => simp [List.find?_cons, hkk]
  | cons a t ih =>
    by_cases ha : a.1 == k
    · have ha' : (a.1 == k') = false := by
        have := eq_of_beq ha
        subst this
        simpa [beq_iff_eq] using fun hq => h hq.symm
      simp only [List.filter_cons, bne, ha, Bool.not_true, Bool.false_eq_true, if_false]
      simp only [List.find?_cons, ha']
      exact ih
    · simp only [List.filter_cons, bne, ha, Bool.not_false, if_true, List.cons_append,
        List.find?_cons]
      by_cases ha' : a.1 == k'
      · simp [ha']
      · simp only [ha']
        exact ih

/-! ## App-state resync error handling (chats socket, `resyncAppState`) -/

/-- `MAX_SYNC_ATTEMPTS` from the chats socket. -/
def MAX_SYNC_ATTEMPTS : Nat := 2

/-- The data of a caught sync error that the catch branch inspects:
`error.output?.statusCode` and whether `error.name === 'TypeError'`. -/
structure SyncError where
  statusCode : Option Nat
  isTypeError : Bool
deriving DecidableEq, Repr

/-- The per-iteration sync state of `resyncAppState`'s key-store transaction:
the `collectionsToHandle` set, the `attemptsMap`, and the
`app-state-sync-version` key-store namespace (a stored value of `none` models
the explicit `null` the catch branch writes; an absent key has no entry). The
`LTHashState` contents are irrelevant to the catch branch and are represented
by their version number. -/
structure ResyncState where
  collectionsToHandle : List String
  attemptsMap : List (String × Nat)
  appStateSyncVersionStore : List (String × Option Nat)
deriving DecidableEq, Repr

/-- The `isIrrecoverableError` condition of the catch branch
(`attemptsMap[name]! >= MAX_SYNC_ATTEMPTS || error.output?.statusCode === 404
|| error.name === 'TypeError'`); a missing attempts entry compares as a JS
`undefined >= 2`, i.e. false, which the default 0 reproduces. -/
def isIrrecoverableSyncError (st : ResyncState) (name : String) (e : SyncError) : Bool :=
  decide ((assocLookup st.attemptsMap name).getD 0 ≥ MAX_SYNC_ATTEMPTS)
    || e.statusCode == some 404
    || e.isTypeError

/-- The catch branch of `resyncAppState` for collection `name` (chats socket
lines 413–431): wipe `app-state-sync-version[name]` to `null`, increment
`attemptsMap[name]`, and delete `name` from `collectionsToHandle` exactly when
the error is irrecoverable. -/
def handleSyncError (st : ResyncState) (name : String) (e : SyncError) : ResyncState :=
  let isIrrecoverableError := isIrrecoverableSyncError st name e
  { collectionsToHandle :=
      if isIrrecoverableError then st.collectionsToHandle.filter (fun m => m != name)
      else st.collectionsToHandle
    attemptsMap := assocSet st.attemptsMap name ((assocLookup st.attemptsMap name).getD 0 + 1)
    appStateSyncVersionStore := assocSet st.appStateSyncVersionStore name none }

/-- C2 counterexample: a tampered patch MAC (an error with no `statusCode` and
not a type error) is NOT abandoned at the second failure: after two
consecutive failures the collection is still in `collectionsToHandle` (with
two recorded attempts), because the catch branch tests the attempt count
recorded BEFORE incrementing, so only the third failure reaches
`attempts ≥ MAX_SYNC_ATTEMPTS`. -/
theorem resync_second_failure_does_not_abandon :
    "regular" ∈ (handleSyncError
        (handleSyncError ⟨["critical_block", "regular"], [], [("regular", some 5)]⟩
          "regular" ⟨none, false⟩)
        "regular" ⟨none, false⟩).collectionsToHandle
      ∧ assocLookup (handleSyncError
          (handleSyncError ⟨["critical_block", "regular"], [], [("regular", some 5)]⟩
            "regular" ⟨none, false⟩)
          "regular" ⟨none, false⟩).attemptsMap "regular" = some 2 := by
  constructor
  · decide
  · decide

theorem handleSyncError_wipes (st : ResyncState) (n : String) (e : SyncError) :
    assocLookup (handleSyncError st n e).appStateSyncVersionStore n = some none := by
  simp only [handleSyncError]
  exact assocLookup_set_self _ _ _

theorem handleSyncError_attempts (st : ResyncState) (n : String) (e : SyncError) :
    assocLookup (handleSyncError st n e).attemptsMap n
      = some ((assocLookup st.attemptsMap n).getD 0 + 1) := by
  simp only [handleSyncError]
  exact assocLookup_set_self _ _ _

theorem handleSyncError_mem_toHandle (st : ResyncState) (n : String) (e : SyncError)
    (m : String) :
    m ∈ (handleSyncError st n e).collectionsToHandle
      ↔ m ∈ st.collectionsToHandle ∧ ¬(m = n ∧ isIrrecoverableSyncError st n e = true) := by
  cases hb : isIrrecoverableSyncError st n e with
  | false => simp [handleSyncError, hb]
  | true =>
    simp only [handleSyncError, hb, if_true, List.mem_filter, bne_iff_ne, ne_eq]
    constructor
    · rintro ⟨hm, hne⟩
      exact ⟨hm, fun hq => hne hq.1⟩
    · rintro ⟨hm, hne⟩
      exact ⟨hm, fun hq => hne ⟨hq, by trivial⟩⟩

theorem handleSyncError_keeps (st : ResyncState) (n : String) (e : SyncError)
    (h : isIrrecoverableSyncError st n e = false) :
    (handleSyncError st n e).collectionsToHandle = st.collectionsToHandle := by
  simp [handleSyncError, h]

theorem handleSyncError_removes (st : ResyncState) (n : String) (e : SyncError)
    (h : isIrrecoverableSyncError st n e = true) :
    n ∉ (handleSyncError st n e).collectionsToHandle := by
  simp [handleSyncError, h, List.mem_filter]

/-- C2 (amended): on a decode failure for collection `name`, the stored
`app-state-sync-version[name]` is set to `null`, the attempt count is
incremented, and the collection is removed from the set of collections to
handle exactly when the error is irrecoverable (recorded attempts ≥
`MAX_SYNC_ATTEMPTS = 2`, or `statusCode = 404`, or a type error) while every
other collection stays; hence a tampered patch MAC with
`macVerification.patch = true` is retried twice, and the third failure
abandons that collection. -/
theorem resync_error_handling (st : ResyncState) (name : String) (e : SyncError)
    (hmac1 : e.statusCode ≠ some 404) (hmac2 : e.isTypeError = false)
    (hfresh : assocLookup st.attemptsMap name = none)
    (hin : name ∈ st.collectionsToHandle) :
    (∀ (st₁ : ResyncState) (n₁ : String) (e₁ : SyncError),
        assocLookup (handleSyncError st₁ n₁ e₁).appStateSyncVersionStore n₁ = some none
        ∧ assocLookup (handleSyncError st₁ n₁ e₁).attemptsMap n₁
            = some ((assocLookup st₁.attemptsMap n₁).getD 0 + 1)
        ∧ (∀ m, m ∈ (handleSyncError st₁ n₁ e₁).collectionsToHandle
            ↔ m ∈ st₁.collectionsToHandle ∧ ¬(m = n₁ ∧ isIrrecoverableSyncError st₁ n₁ e₁ = true)))
      ∧ (name ∈ (handleSyncError st name e).collectionsToHandle
        ∧ name ∈ (handleSyncError (handleSyncError st name e) name e).collectionsToHandle
        ∧ name ∉ (handleSyncError (handleSyncError (handleSyncError st name e) name e)
            name e).collectionsToHandle) := by
  have hcode : (e.statusCode == some 404) = false := beq_eq_false_iff_ne.mpr hmac1
  refine ⟨fun st₁ n₁ e₁ =>
    ⟨handleSyncError_wipes st₁ n₁ e₁, handleSyncError_attempts st₁ n₁ e₁,
      handleSyncError_mem_toHandle st₁ n₁ e₁⟩, ?_⟩
  have h1 : isIrrecoverableSyncError st name e = false := by
    simp [isIrrecoverableSyncError, hfresh, hcode, hmac2, MAX_SYNC_ATTEMPTS]
  have hc1 : (handleSyncError st name e).collectionsToHandle = st.collectionsToHandle :=
    handleSyncError_keeps st name e h1
  have ha1 : assocLookup (handleSyncError st name e).attemptsMap name = some 1 := by
    rw [handleSyncError_attempts, hfresh]
    rfl
  have h2 : isIrrecoverableSyncError (handleSyncError st name e) name e = false := by
    simp [isIrrecoverableSyncError, ha1, hcode, hmac2, MAX_SYNC_ATTEMPTS]
  have hc2 : (handleSyncError (handleSyncError st name e) name e).collectionsToHandle
      = st.collectionsToHandle :=
    (handleSyncError_keeps _ name e h2).trans hc1
  have ha2 : assocLookup
      (handleSyncError (handleSyncError st name e) name e).attemptsMap name = some 2 := by
    rw [handleSyncError_attempts, ha1]
    rfl
  have h3 : isIrrecoverableSyncError (handleSyncError (handleSyncError st name e) name e)
      name e = true := by
    simp [isIrrecoverableSyncError, ha2, MAX_SYNC_ATTEMPTS]
  exact ⟨hc1 ▸ hin, hc2 ▸ hin, handleSyncError_removes _ name e h3⟩

/-- Witness for `resync_error_handling`: a MAC failure for `regular` in a
fresh sync of two collections. -/
theorem resync_error_handling_witness :
    ((⟨none, false⟩ : SyncError).statusCode ≠ some 404
      ∧ (⟨none, false⟩ : SyncError).isTypeError = false
      ∧ assocLookup (⟨["regular", "critical_block"], [], []⟩ : ResyncState).attemptsMap
          "regular" = none
      ∧ "regular" ∈ (⟨["regular", "critical_block"], [], []⟩ : ResyncState).collectionsToHandle)
    ∧ ((∀ (st₁ : ResyncState) (n₁ : String) (e₁ : SyncError),
        assocLookup (handleSyncError st₁ n₁ e₁).appStateSyncVersionStore n₁ = some none
        ∧ assocLookup (handleSyncError st₁ n₁ e₁).attemptsMap n₁
            = some ((assocLookup st₁.attemptsMap n₁).getD 0 + 1)
        ∧ (∀ m, m ∈ (handleSyncError st₁ n₁ e₁).collectionsToHandle
            ↔ m ∈ st₁.collectionsToHandle ∧ ¬(m = n₁ ∧ isIrrecoverableSyncError st₁ n₁ e₁ = true)))
      ∧ ("regular" ∈ (handleSyncError ⟨["regular", "critical_block"], [], []⟩
            "regular" ⟨none, false⟩).collectionsToHandle
        ∧ "regular" ∈ (handleSyncError (handleSyncError ⟨["regular", "critical_block"], [], []⟩
            "regular" ⟨none, false⟩) "regular" ⟨none, false⟩).collectionsToHandle
        ∧ "regular" ∉ (handleSyncError (handleSyncError
            (handleSyncError ⟨["regular", "critical_block"], [], []⟩ "regular" ⟨none, false⟩)
            "regular" ⟨none, false⟩) "regular" ⟨none, false⟩).collectionsToHandle)) :=
  ⟨⟨by decide, rfl, rfl, by decide⟩,
    resync_error_handling ⟨["regular", "critical_block"], [], []⟩ "regular" ⟨none, false⟩
      (by decide) rfl rfl (by decide)⟩

/-! ## Socket close (`src/src/Socket/socket.ts`, `end`) -/

/-- The socket state that `end` reads and mutates: the `closed` flag, the two
timers, the ws listeners, the ws itself, the `connection.update` listeners,
and the log of `connection.update {connection: close}` events emitted so far
(each entry is the `lastDisconnect.error` payload of one emission). -/
structure SocketState where
  closed : Bool
  keepAliveActive : Bool
  qrTimerActive : Bool
  wsListenersActive : Bool
  wsOpen : Bool
  connUpdateListenersActive : Bool
  closeUpdatesEmitted : List (Option String)
deriving DecidableEq, Repr

/-- `end(error)` from `socket.ts` lines 304–338 (`end` is a Lean keyword, so
the definition is named `endConnection`): an early return when already
closed, otherwise set `closed`, clear both timers, remove the ws listeners,
close the ws, emit one `connection.update {connection: close, lastDisconnect:
{error, date}}`, and remove the `connection.update` listeners. -/
def endConnection (error : Option String) (st : SocketState) : SocketState :=
  if st.closed then st
  else
    { closed := true
      keepAliveActive := false
      qrTimerActive := false
      wsListenersActive := false
      wsOpen := false
      connUpdateListenersActive := false
      closeUpdatesEmitted := st.closeUpdatesEmitted ++ [error] }

theorem endConnection_closed (err : Option String) (s : SocketState)
    (h : s.closed = true) : endConnection err s = s := by
  simp [endConnection, h]

theorem foldl_endConnection_closed (es : List (Option String)) (s : SocketState)
    (h : s.closed = true) :
    es.foldl (fun s err => endConnection err s) s = s := by
  induction es with
  | nil => rfl
  | cons a t ih =>
    simp only [List.foldl_cons, endConnection_closed a s h]
    exact ih

/-- C9: `end` is idempotent in its observable effect. For any sequence of
`N ≥ 1` calls (argument `e` then arguments `es`) on a not-yet-closed socket,
the whole sequence equals the first call alone, that first call emits exactly
one close `connection.update` carrying the first call's error, and every call
on an already-closed socket leaves the state unchanged. -/
theorem end_idempotent (e : Option String) (es : List (Option String)) (st : SocketState)
    (h : st.closed = false) :
    es.foldl (fun s err => endConnection err s) (endConnection e st) = endConnection e st
      ∧ (endConnection e st).closeUpdatesEmitted = st.closeUpdatesEmitted ++ [e]
      ∧ (∀ (err : Option String) (s : SocketState), s.closed = true → endConnection err s = s) := by
  have hclosed : (endConnection e st).closed = true := by
    simp [endConnection, h]
  exact ⟨foldl_endConnection_closed es _ hclosed, by simp [endConnection, h],
    endConnection_closed⟩

/-- Witness for `end_idempotent`: three `end` calls on an open socket. -/
theorem end_idempotent_witness :
    ((⟨false, true, true, true, true, true, []⟩ : SocketState).closed = false)
      ∧ (([none, some "second"] : List (Option String)).foldl (fun s err => endConnection err s)
            (endConnection (some "lost") ⟨false, true, true, true, true, true, []⟩)
          = endConnection (some "lost") ⟨false, true, true, true, true, true, []⟩
        ∧ (endConnection (some "lost")
            (⟨false, true, true, true, true, true, []⟩ : SocketState)).closeUpdatesEmitted
          = (⟨false, true, true, true, true, true, []⟩ : SocketState).closeUpdatesEmitted
            ++ [some "lost"]
        ∧ (∀ (err : Option String) (s : SocketState), s.closed = true →
            endConnection err s = s)) :=
  ⟨rfl, end_idempotent (some "lost") [none, some "second"]
    ⟨false, true, true, true, true, true, []⟩ rfl⟩

/-! ## QR pairing rotation (`src/src/Socket/socket.ts`, pair-device handler) -/

/-- JS `a || b` on an optional number: the default is taken when the value is
absent or `0` (both falsy). -/
def jsOrNat : Option Nat → Nat → Nat
  | some v, d => if v == 0 then d else v
  | none, d => d

/-- One emitted `connection.update {qr}` together with the lifetime scheduled
for it (the `setTimeout` delay armed right after emitting it). -/
structure QREmission where
  qr : String
  lifetimeMs : Nat
deriving DecidableEq, Repr

/-- `DisconnectReason.timedOut`. -/
def DisconnectReasonTimedOut : Nat := 408

/-- `genPairQR` from `socket.ts` lines 474–492, run to completion with the ws
open and no scan arriving: each round shifts the next ref, emits
`[ref, noiseKeyB64, identityKeyB64, advB64].join(',')` as the qr with the
current `qrMs` as its lifetime, then updates `qrMs := qrTimeout || 20_000`;
when the refs are exhausted it calls `end` with `timedOut` (returned as the
second component, the close status code). -/
def genPairQR (noiseKeyB64 identityKeyB64 advB64 : String) (qrTimeout : Option Nat) :
    Nat → List String → List QREmission × Option Nat
  | _, [] => ([], some DisconnectReasonTimedOut)
  | qrMs, ref :: rest =>
    let qr := String.intercalate "," [ref, noiseKeyB64, identityKeyB64, advB64]
    let next := genPairQR noiseKeyB64 identityKeyB64 advB64 qrTimeout
      (jsOrNat qrTimeout 20000) rest
    (⟨qr, qrMs⟩ :: next.1, next.2)

/-- The whole pair-device QR flow: `qrMs` starts at `qrTimeout || 60_000`. -/
def pairDeviceQRFlow (noiseKeyB64 identityKeyB64 advB64 : String) (qrTimeout : Option Nat)
    (refs : List String) : List QREmission × Option Nat :=
  genPairQR noiseKeyB64 identityKeyB64 advB64 qrTimeout (jsOrNat qrTimeout 60000) refs

/-- C8 counterexample: with `qrTimeout = 30000` configured and two refs, the
second QR's lifetime is 30000 ms, not the 20 s the claim states for every
subsequent rotation (`qrMs = qrTimeout || 20_000` keeps `qrTimeout` when it is
set). -/
theorem qr_rotation_counterexample :
    (pairDeviceQRFlow "noiseB64" "identityB64" "advSecret" (some 30000)
        ["ref1", "ref2"]).1.map (fun e => e.lifetimeMs) = [30000, 30000]
      ∧ (30000 : Nat) ≠ 20000 := by
  constructor
  · rfl
  · decide

theorem genPairQR_spec (noiseKeyB64 identityKeyB64 advB64 : String) (qrTimeout : Option Nat)
    (qrMs : Nat) (refs : List String) :
    (genPairQR noiseKeyB64 identityKeyB64 advB64 qrTimeout qrMs refs).1.map (fun e => e.qr)
        = refs.map (fun r => String.intercalate "," [r, noiseKeyB64, identityKeyB64, advB64])
      ∧ (genPairQR noiseKeyB64 identityKeyB64 advB64 qrTimeout qrMs refs).1.map
          (fun e => e.lifetimeMs)
        = (match refs with
          | [] => []
          | _ :: rest => qrMs :: rest.map (fun _ => jsOrNat qrTimeout 20000))
      ∧ (genPairQR noiseKeyB64 identityKeyB64 advB64 qrTimeout qrMs refs).2
        = some DisconnectReasonTimedOut := by
  induction refs generalizing qrMs with
  | nil => exact ⟨rfl, rfl, rfl⟩
  | cons r rest ih =>
    obtain ⟨ih1, ih2, ih3⟩ := ih (jsOrNat qrTimeout 20000)
    refine ⟨?_, ?_, ih3⟩
    · simp only [genPairQR, List.map_cons, List.cons.injEq]
      exact ⟨by trivial, ih1⟩
    · simp only [genPairQR, List.map_cons, List.cons.injEq]
      refine ⟨by trivial, ?_⟩
      rw [ih2]
      cases rest with
      | nil => rfl
      | cons a t => rfl

/-- C8 (amended): on pair-device with refs `r1..rn`, each emitted qr is
`ref ++ "," ++ noiseKeyB64 ++ "," ++ identityKeyB64 ++ "," ++ advSecretKey`;
the first QR lives `qrTimeout` ms (60 000 ms when unset), every subsequent
rotation lives `qrTimeout` ms when it is set and 20 000 ms otherwise; and
once all refs are consumed the connection is closed with `timedOut`. -/
theorem qr_rotation (noiseKeyB64 identityKeyB64 advB64 : String) (qrTimeout : Option Nat)
    (refs : List String) :
    (pairDeviceQRFlow noiseKeyB64 identityKeyB64 advB64 qrTimeout refs).1.map (fun e => e.qr)
        = refs.map (fun r => String.intercalate "," [r, noiseKeyB64, identityKeyB64, advB64])
      ∧ (pairDeviceQRFlow noiseKeyB64 identityKeyB64 advB64 qrTimeout refs).1.map
          (fun e => e.lifetimeMs)
        = (match refs with
          | [] => []
          | _ :: rest => jsOrNat qrTimeout 60000 :: rest.map (fun _ => jsOrNat qrTimeout 20000))
      ∧ (pairDeviceQRFlow noiseKeyB64 identityKeyB64 advB64 qrTimeout refs).2
        = some DisconnectReasonTimedOut :=
  genPairQR_spec noiseKeyB64 identityKeyB64 advB64 qrTimeout (jsOrNat qrTimeout 60000) refs

/-! ## Binary nodes and `relayMessage` (`src/src/Socket/messages-send.ts`) -/

/-- An attribute value: the wire format has only strings, but jid-valued
attributes are kept structured (see `EncJid`) and numeric attributes (the
`id` of a device node, read with JS `+x`) are kept numeric. -/
inductive AttrV where
  | s (v : String)
  | j (v : EncJid)
  | n (v : Nat)
deriving DecidableEq, Repr

/-- A `BinaryNode`: `{tag, attrs, content}` where the content is absent,
bytes, or a child list (`children = some l` models an array content so that
`Array.isArray` checks translate to matching on `some`). Byte contents are
opaque strings. -/
inductive BNode where
  | mk (tag : String) (attrs : List (String × AttrV)) (children : Option (List BNode))
      (data : Option String)

def BNode.tag : BNode → String
  | .mk t _ _ _ => t

def BNode.attrs : BNode → List (String × AttrV)
  | .mk _ a _ _ => a

def BNode.children : BNode → Option (List BNode)
  | .mk _ _ c _ => c

def BNode.data : BNode → Option String
  | .mk _ _ _ d => d

/-- `getBinaryNodeChild` from WABinary (used throughout the sources): the
first child with the given tag, `undefined` when the content is not an
array. -/
def getBinaryNodeChild (node : BNode) (childTag : String) : Option BNode :=
  match node.children with
  | some l => l.find? (fun c => c.tag == childTag)
  | none => none

/-- Attribute lookup on a node's attrs (JS `attrs[key]`). -/
def attrLookup (attrs : List (String × AttrV)) (key : String) : Option AttrV :=
  (attrs.find? (fun p => p.1 == key)).map (·.2)

/-- JS `+x` on an attribute value: numbers pass through, strings parse, a
missing attribute or a jid gives NaN (modelled as `none`). -/
def jsToNumber : Option AttrV → Option Nat
  | some (.n v) => some v
  | some (.s str) => str.toNat?
  | _ => none

/-- JS strict `!==` between `myDevice` (possibly `undefined`) and a parsed
device number (possibly NaN): two present numbers compare numerically, any
other combination is unequal (`undefined !== n`, `n !== NaN`,
`undefined !== NaN` are all true). -/
def jsDeviceNeq : Option Nat → Option Nat → Bool
  | some a, some b => a != b
  | _, _ => true

/-- JS truthiness of an attribute value (`!!attrs['key-index']`). -/
def attrTruthy : Option AttrV → Bool
  | some (.s v) => v != ""
  | some (.n v) => v != 0
  | some (.j _) => true
  | none => false

/-- The per-device-node test of `extractDeviceJids` (`signal.ts` lines
118–127): keep a `device` child when it is tagged `device`, not a zero device
if those are excluded, not the caller's own device, and has `key-index` set
unless it is device 0. -/
def keepDeviceEntry (excludeZeroDevices : Bool) (myUser : String) (myDevice : Option Nat)
    (user : String) (dn : BNode) : Option JidWithDevice :=
  let device := jsToNumber (attrLookup dn.attrs "id")
  if dn.tag == "device"
      && (!excludeZeroDevices || !(device == some 0))
      && (myUser != user || jsDeviceNeq myDevice device)
      && (device == some 0 || attrTruthy (attrLookup dn.attrs "key-index"))
  then some ⟨user, device⟩
  else none

/-- `extractDeviceJids(result, myJid, excludeZeroDevices)` from `signal.ts`
lines 107–135: walk `result.content`, for each node take the `list` child's
`user` items, and per item walk `devices → device-list` collecting the
device entries that pass `keepDeviceEntry`. `jidDecode(item.attrs.jid)` is
field access on the structured jid. -/
def extractDeviceJids (result : BNode) (myJid : EncJid) (excludeZeroDevices : Bool) :
    List JidWithDevice :=
  ((result.children).getD []).flatMap (fun node =>
    match getBinaryNodeChild node "list" with
    | some listNode =>
      ((listNode.children).getD []).flatMap (fun item =>
        let user := match attrLookup item.attrs "jid" with
          | some (.j v) => v.user
          | _ => ""
        match (getBinaryNodeChild item "devices").bind
            (fun dn => getBinaryNodeChild dn "device-list") with
        | some deviceListNode =>
          match deviceListNode.children with
          | some devNodes =>
            devNodes.filterMap (keepDeviceEntry excludeZeroDevices myJid.user myJid.device user)
          | none => []
        | none => [])
    | none => [])

/-- The jid a `JidWithDevice` is addressed under in `relayMessage`:
`jidEncode(user, 's.whatsapp.net', device)`. -/
def encDeviceJid (d : JidWithDevice) : EncJid :=
  jidEncode d.user "s.whatsapp.net" d.device

/-- One step of the sender-key loop of `relayMessage` (lines 386–393): for
each device jid, when `!senderKeyMap[jid] || !!participant`, push the jid
onto `senderKeyJids` and record it in the map. The accumulator is
`(senderKeyJids, senderKeyMap)`; the map is the set of jids stored `true`. -/
def senderKeyFoldStep (hasParticipant : Bool) (acc : List EncJid × List EncJid)
    (d : JidWithDevice) : List EncJid × List EncJid :=
  let jid := encDeviceJid d
  if jid ∉ acc.2 ∨ hasParticipant = true then
    (acc.1 ++ [jid], if jid ∈ acc.2 then acc.2 else acc.2 ++ [jid])
  else acc

/-- An `enc` child node carrying one per-device ciphertext. -/
def mkEncNode (ty : EncType) (ciphertext : String) : BNode :=
  .mk "enc" [("v", .s "2"), ("type", .s (encTypeName ty))] none (some ciphertext)

/-- The per-recipient `to{jid}[enc{...}]` node built by
`createParticipantNodes`. -/
def mkToNode (encrypt : EncJid → EncType × String) (jid : EncJid) : BNode :=
  .mk "to" [("jid", .j jid)] (some [mkEncNode (encrypt jid).1 (encrypt jid).2]) none

/-- `createParticipantNodes(jids, message)` (lines 264–300): one `to` node
per jid, plus the `shouldIncludeDeviceIdentity` flag, true iff some
recipient's encryption came back `pkmsg`. `patchMessageBeforeSending`/
`encodeWAMessage` and the media-type extra attr concern the payload bytes
only; per-recipient encryption is the oracle `encrypt` (the SignalRepository
is opaque and its result depends on the recipient's session). -/
def createParticipantNodes (encrypt : EncJid → EncType × String) (jids : List EncJid) :
    List BNode × Bool :=
  (jids.map (mkToNode encrypt), jids.any (fun j => (encrypt j).1 == EncType.pkmsg))

/-- `obj[k] = v` on an attrs object (also models a later key in an object
spread overriding an earlier one: lookup observes last-write-wins). -/
def attrsSet (attrs : List (String × AttrV)) (key : String) (v : AttrV) :
    List (String × AttrV) :=
  attrs.filter (fun p => p.1 != key) ++ [(key, v)]

/-- The object spread `{ ...base, ...additions }` (per-key last-write-wins). -/
def attrsSpread (base : List (String × AttrV)) (additions : List (String × AttrV)) :
    List (String × AttrV) :=
  additions.foldl (fun acc p => attrsSet acc p.1 p.2) base

/-- The stanza attrs of `relayMessage` (lines 471–495):
`{id, type: 'text', ...additionalAttributes}` and then the addressing
attributes — with a participant on a group, `to = destination` and
`participant = p`; with a participant that is one of my own devices
(`areJidsSameUser(p, meId)`, i.e. same user), `to = p` and
`recipient = destination`; with any other participant, `to = p`; without a
participant, `to = destination`. -/
def stanzaAttrs (messageId : String) (additionalAttributes : List (String × AttrV))
    (participant : Option EncJid) (destinationJid : EncJid) (meId : EncJid) :
    List (String × AttrV) :=
  let base := attrsSpread [("id", .s messageId), ("type", .s "text")] additionalAttributes
  match participant with
  | some p =>
    if destinationJid.server == "g.us" then
      attrsSet (attrsSet base "to" (.j destinationJid)) "participant" (.j p)
    else if p.user == meId.user then
      attrsSet (attrsSet base "to" (.j p)) "recipient" (.j destinationJid)
    else
      attrsSet base "to" (.j p)
  | none => attrsSet base "to" (.j destinationJid)

/-- The `device-identity` child (content is the encoded signed device
identity from creds). -/
def mkDeviceIdentityNode (bytes : String) : BNode :=
  .mk "device-identity" [] none (some bytes)

/-- The `biz` child added for button messages. -/
def mkBizNode (buttonType : String) : BNode :=
  .mk "biz" [] (some [.mk buttonType [] none none]) none

/-- The final stanza assembly of `relayMessage` (lines 463–521): the content
pushed so far (`preContent`, the group `enc{skmsg}` node if any), then a
`participants` wrapper when there are per-device nodes, then `device-identity`
when some recipient used `pkmsg`, then the `biz` node for button messages. -/
def assembleMessageStanza (attrs : List (String × AttrV)) (preContent : List BNode)
    (participantNodes : List BNode) (includeDeviceIdentity : Bool)
    (deviceIdentityBytes : String) (buttonType : Option String) : BNode :=
  .mk "message" attrs
    (some (preContent
      ++ (if participantNodes.isEmpty then []
          else [.mk "participants" [] (some participantNodes) none])
      ++ (if includeDeviceIdentity then [mkDeviceIdentityNode deviceIdentityBytes] else [])
      ++ (match buttonType with
          | some b => [mkBizNode b]
          | none => [])))
    none

/-- The environment of one `relayMessage` call: the connection state it reads
and the opaque collaborators. `usyncDevices` is the result of the
`getUSyncDevices` call the branch makes (group participants with
`ignoreZeroDevices = false`, or `[meId, jid]` with `ignoreZeroDevices = true`
for 1-1); `storedSenderKeyMemory` is the `sender-key-memory[jid]` entry;
`encrypt` is `signalRepository.encryptMessage` per device jid;
`groupCiphertext` and the sender-key distribution payload come from
`encryptGroupMessage`. -/
structure RelayEnv where
  meId : EncJid
  storedSenderKeyMemory : List EncJid
  usyncDevices : List JidWithDevice
  encrypt : EncJid → EncType × String
  groupCiphertext : String
  deviceIdentityBytes : String
  buttonType : Option String

/-- The options of one `relayMessage` call (messageId already generated). -/
structure RelayOpts where
  messageId : String
  participant : Option EncJid
  additionalAttributes : List (String × AttrV)

/-- What one `relayMessage` call produces: the assembled stanza, the
`sender-key-memory` map persisted for the group (group sends only), and
whether USync device discovery ran. -/
structure RelayResult where
  stanza : BNode
  senderKeyMemoryStored : Option (List EncJid)
  usyncQueried : Bool

/-- `relayMessage(jid, message, opts)` from `messages-send.ts` lines 302–530.
Group branch: the sender-key map is the stored memory, or `{}` on a retry
(`participant` set); the devices are the participant's single device on a
retry, else the USync devices of the group participants; the sender-key loop
collects the devices still needing the sender key (all of them on a retry);
per-device distribution nodes are built for exactly those; the group payload
is appended as `enc{type: skmsg}`; the updated map is persisted. 1-1 branch:
the devices are the participant's single device (with `device_fanout: false`
added to the attributes and no USync query), else the two primary users plus
the USync devices of `[meId, jid]`; devices split into my jids and others,
encrypted per device. Assembly per `assembleMessageStanza`/`stanzaAttrs`. -/
def relayMessage (env : RelayEnv) (jid : EncJid) (opts : RelayOpts) : RelayResult :=
  let meId := env.meId
  let isGroup := jid.server == "g.us"
  let destinationJid := jidEncode jid.user (if isGroup then "g.us" else "s.whatsapp.net") none
  let additionalAttributes :=
    match opts.participant with
    | some _ =>
      if !isGroup then attrsSet opts.additionalAttributes "device_fanout" (.s "false")
      else opts.additionalAttributes
    | none => opts.additionalAttributes
  if isGroup then
    let senderKeyMap : List EncJid :=
      match opts.participant with
      | some _ => []
      | none => env.storedSenderKeyMemory
    let devices : List JidWithDevice :=
      match opts.participant with
      | some p => [⟨p.user, p.device⟩]
      | none => env.usyncDevices
    let folded := devices.foldl (senderKeyFoldStep opts.participant.isSome) ([], senderKeyMap)
    let pn := createParticipantNodes env.encrypt folded.1
    { stanza := assembleMessageStanza
        (stanzaAttrs opts.messageId additionalAttributes opts.participant destinationJid meId)
        [.mk "enc" [("v", .s "2"), ("type", .s "skmsg")] none (some env.groupCiphertext)]
        pn.1 pn.2 env.deviceIdentityBytes env.buttonType
      senderKeyMemoryStored := some folded.2
      usyncQueried := opts.participant.isNone }
  else
    let meUser := meId.user
    let devices : List JidWithDevice :=
      match opts.participant with
      | some p => [⟨p.user, p.device⟩]
      | none => ⟨jid.user, none⟩ :: ⟨meUser, none⟩ :: env.usyncDevices
    let meJids := (devices.filter (fun d => d.user == meUser)).map encDeviceJid
    let otherJids := (devices.filter (fun d => d.user != meUser)).map encDeviceJid
    let meRes := createParticipantNodes env.encrypt meJids
    let otherRes := createParticipantNodes env.encrypt otherJids
    { stanza := assembleMessageStanza
        (stanzaAttrs opts.messageId additionalAttributes opts.participant destinationJid meId)
        []
        (meRes.1 ++ otherRes.1) (meRes.2 || otherRes.2) env.deviceIdentityBytes env.buttonType
      senderKeyMemoryStored := none
      usyncQueried := opts.participant.isNone }

/-- The jids of the per-device `to` nodes of an assembled message stanza
(the children of its `participants` child tagged `to`). -/
def toNodeJids (stanza : BNode) : List EncJid :=
  match getBinaryNodeChild stanza "participants" with
  | some p => ((p.children).getD []).filterMap (fun c =>
      if c.tag == "to" then
        match attrLookup c.attrs "jid" with
        | some (.j v) => some v
        | _ => none
      else none)
  | none => []

/-- Whether an assembled message stanza carries a `device-identity` child. -/
def hasDeviceIdentity (stanza : BNode) : Bool :=
  (getBinaryNodeChild stanza "device-identity").isSome

theorem filterMap_mkToNode (encrypt : EncJid → EncType × String) (jids : List EncJid) :
    (jids.map (mkToNode encrypt)).filterMap (fun c =>
        if c.tag == "to" then
          match attrLookup c.attrs "jid" with
          | some (.j v) => some v
          | _ => none
        else none) = jids := by
  induction jids with
  | nil => rfl
  | cons j t ih =>
    simp only [List.map_cons, List.filterMap_cons]
    exact congrArg (List.cons j) ih

theorem tail_no_participants (inc : Bool) (bytes : String) (btn : Option String) :
    ((if inc then [mkDeviceIdentityNode bytes] else [])
        ++ (match btn with
          | some b => [mkBizNode b]
          | none => [])).find? (fun c => c.tag == "participants") = none := by
  cases inc <;> cases btn <;> rfl

theorem toNodeJids_assemble (attrs : List (String × AttrV)) (pre : List BNode)
    (hpre : pre.find? (fun c => c.tag == "participants") = none)
    (encrypt : EncJid → EncType × String) (jids : List EncJid) (inc : Bool)
    (bytes : String) (btn : Option String) :
    toNodeJids (assembleMessageStanza attrs pre (createParticipantNodes encrypt jids).1
      inc bytes btn) = jids := by
  unfold toNodeJids assembleMessageStanza getBinaryNodeChild
  simp only [BNode.children]
  rw [List.append_assoc, List.append_assoc, find?_append_of_none hpre]
  cases jids with
  | nil =>
    simp only [createParticipantNodes, List.map_nil, List.isEmpty_nil, if_true,
      List.nil_append]
    rw [tail_no_participants]
  | cons j t =>
    simp only [createParticipantNodes, List.map_cons, List.isEmpty_cons, Bool.false_eq_true,
      if_false, List.cons_append]
    rw [List.find?_cons_of_pos _ (by rfl)]
    simp only [BNode.children, Option.getD_some]
    rw [← List.map_cons]
    exact filterMap_mkToNode encrypt (j :: t)

theorem hasDeviceIdentity_assemble (attrs : List (String × AttrV)) (pre : List BNode)
    (hpre : pre.find? (fun c => c.tag == "device-identity") = none)
    (pnodes : List BNode) (inc : Bool) (bytes : String) (btn : Option String) :
    hasDeviceIdentity (assembleMessageStanza attrs pre pnodes inc bytes btn) = inc := by
  unfold hasDeviceIdentity assembleMessageStanza getBinaryNodeChild
  simp only [BNode.children]
  rw [List.append_assoc, List.append_assoc, find?_append_of_none hpre]
  cases hpe : pnodes.isEmpty
  · simp only [Bool.false_eq_true, if_false]
    cases inc <;> cases btn <;> rfl
  · simp only [if_true]
    cases inc <;> cases btn <;> rfl

theorem senderKeyFold_spec (ds : List JidWithDevice) (sks m : List EncJid) (j : EncJid) :
    (j ∈ (ds.foldl (senderKeyFoldStep false) (sks, m)).1
      ↔ j ∈ sks ∨ (j ∈ ds.map encDeviceJid ∧ j ∉ m))
    ∧ (j ∈ (ds.foldl (senderKeyFoldStep false) (sks, m)).2
      ↔ j ∈ m ∨ j ∈ ds.map encDeviceJid) := by
  induction ds generalizing sks m with
  | nil => simp
  | cons d tl ih =>
    simp only [List.foldl_cons, List.map_cons, List.mem_cons]
    by_cases hd : encDeviceJid d ∈ m
    · have hstep : senderKeyFoldStep false (sks, m) d = (sks, m) := by
        simp [senderKeyFoldStep, hd]
      rw [hstep]
      obtain ⟨ih1, ih2⟩ := ih sks m
      constructor
      · rw [ih1]
        constructor
        · rintro (h | ⟨h1, h2⟩)
          · exact Or.inl h
          · exact Or.inr ⟨Or.inr h1, h2⟩
        · rintro (h | ⟨h1 | h1, h2⟩)
          · exact Or.inl h
          · exact absurd (h1 ▸ hd) h2
          · exact Or.inr ⟨h1, h2⟩
      · rw [ih2]
        constructor
        · rintro (h | h)
          · exact Or.inl h
          · exact Or.inr (Or.inr h)
        · rintro (h | h | h)
          · exact Or.inl h
          · exact Or.inl (h ▸ hd)
          · exact Or.inr h
    · have hstep : senderKeyFoldStep false (sks, m) d
          = (sks ++ [encDeviceJid d], m ++ [encDeviceJid d]) := by
        simp [senderKeyFoldStep, hd]
      rw [hstep]
      obtain ⟨ih1, ih2⟩ := ih (sks ++ [encDeviceJid d]) (m ++ [encDeviceJid d])
      constructor
      · rw [ih1]
        simp only [List.mem_append, List.mem_singleton]
        constructor
        · rintro ((h | h) | ⟨h1, h2⟩)
          · exact Or.inl h
          · exact Or.inr ⟨Or.inl h, fun hm => hd (h ▸ hm)⟩
          · exact Or.inr ⟨Or.inr h1, fun hm => h2 (Or.inl hm)⟩
        · rintro (h | ⟨h1 | h1, h2⟩)
          · exact Or.inl (Or.inl h)
          · exact Or.inl (Or.inr h1)
          · by_cases hj : j = encDeviceJid d
            · exact Or.inl (Or.inr hj)
            · exact Or.inr ⟨h1, fun hm => h2 (hm.elim (fun q => q) (fun q => absurd q hj))⟩
      · rw [ih2]
        simp only [List.mem_append, List.mem_singleton]
        constructor
        · rintro ((h | h) | h)
          · exact Or.inl h
          · exact Or.inr (Or.inl h)
          · exact Or.inr (Or.inr h)
        · rintro (h | h | h)
          · exact Or.inl (Or.inl h)
          · exact Or.inl (Or.inr h)
          · exact Or.inr h

theorem cpn_append (enc : EncJid → EncType × String) (a b : List EncJid) :
    (createParticipantNodes enc a).1 ++ (createParticipantNodes enc b).1
      = (createParticipantNodes enc (a ++ b)).1 :=
  (List.map_append _ _ _).symm

/-- C10: a group relay with `opts.participant` set ignores the stored
sender-key-memory (it behaves exactly as with an empty map), distributes to
exactly the participant's device, and persists a map containing exactly that
device — discarding every device jid recorded by earlier sends. -/
theorem group_retry_discards_sender_key_memory (u : String) (p : EncJid)
    (M : List EncJid) (devs : List JidWithDevice) (meId : EncJid)
    (encrypt : EncJid → EncType × String) (gc didBytes : String) (btn : Option String)
    (msgId : String) (addAttrs : List (String × AttrV)) :
    (relayMessage ⟨meId, M, devs, encrypt, gc, didBytes, btn⟩ ⟨u, "g.us", none⟩
        ⟨msgId, some p, addAttrs⟩).senderKeyMemoryStored
        = some [jidEncode p.user "s.whatsapp.net" p.device]
      ∧ toNodeJids (relayMessage ⟨meId, M, devs, encrypt, gc, didBytes, btn⟩ ⟨u, "g.us", none⟩
          ⟨msgId, some p, addAttrs⟩).stanza
        = [jidEncode p.user "s.whatsapp.net" p.device]
      ∧ relayMessage ⟨meId, M, devs, encrypt, gc, didBytes, btn⟩ ⟨u, "g.us", none⟩
          ⟨msgId, some p, addAttrs⟩
        = relayMessage ⟨meId, [], devs, encrypt, gc, didBytes, btn⟩ ⟨u, "g.us", none⟩
          ⟨msgId, some p, addAttrs⟩ := by
  refine ⟨rfl, ?_, rfl⟩
  exact toNodeJids_assemble _
    [BNode.mk "enc" [("v", AttrV.s "2"), ("type", AttrV.s "skmsg")] none (some gc)] rfl
    encrypt [jidEncode p.user "s.whatsapp.net" p.device] _ _ _

/-- C5: the assembled stanza of any `relayMessage` call carries a
`device-identity` child iff the per-device encryption of at least one
recipient (a `to` node of the stanza) returned ciphertext type `pkmsg`. -/
theorem device_identity_iff_pkmsg (env : RelayEnv) (jid : EncJid) (opts : RelayOpts) :
    hasDeviceIdentity (relayMessage env jid opts).stanza
      = (toNodeJids (relayMessage env jid opts).stanza).any
          (fun j => (env.encrypt j).1 == EncType.pkmsg) := by
  obtain ⟨msgId, part, addAttrs⟩ := opts
  cases hg : (jid.server == "g.us") with
  | true =>
    simp only [relayMessage, hg, if_true]
    rw [hasDeviceIdentity_assemble _ [BNode.mk "enc" [("v", AttrV.s "2"), ("type", AttrV.s "skmsg")]
          none (some env.groupCiphertext)] rfl,
      toNodeJids_assemble _ [BNode.mk "enc" [("v", AttrV.s "2"), ("type", AttrV.s "skmsg")]
          none (some env.groupCiphertext)] rfl]
    rfl
  | false =>
    simp only [relayMessage, hg, Bool.false_eq_true, if_false]
    rw [cpn_append]
    rw [hasDeviceIdentity_assemble _ ([] : List BNode) rfl,
      toNodeJids_assemble _ ([] : List BNode) rfl]
    rw [List.any_append]
    rfl

theorem attrsSpread_append_single (base l : List (String × AttrV)) (k : String) (v : AttrV) :
    attrsSpread base (l ++ [(k, v)]) = attrsSet (attrsSpread base l) k v := by
  simp [attrsSpread, List.foldl_append]

theorem attrLookup_base_fanout (msgId : String) (addAttrs : List (String × AttrV)) :
    attrLookup (attrsSpread [("id", AttrV.s msgId), ("type", AttrV.s "text")]
        (attrsSet addAttrs "device_fanout" (AttrV.s "false"))) "device_fanout"
      = some (AttrV.s "false") := by
  rw [show attrsSet addAttrs "device_fanout" (AttrV.s "false")
      = addAttrs.filter (fun q => q.1 != "device_fanout")
        ++ [("device_fanout", AttrV.s "false")] from rfl]
  rw [attrsSpread_append_single]
  exact assocLookup_set_self _ _ _

theorem filter_split_singleton (d : JidWithDevice) (meUser : String) :
    (([d].filter (fun x => x.user == meUser)).map encDeviceJid)
        ++ (([d].filter (fun x => x.user != meUser)).map encDeviceJid)
      = [encDeviceJid d] := by
  cases h : (d.user == meUser) with
  | true => simp [List.filter, h, bne]
  | false => simp [List.filter, h, bne]

/-- C3: a relay to a non-group jid with `opts.participant = p` performs no
USync device discovery, targets exactly the single device `p` (one `to` node,
no other per-device recipient), and the stanza carries
`device_fanout = "false"`. -/
theorem retry_isolation (meId p : EncJid) (M : List EncJid) (devs : List JidWithDevice)
    (encrypt : EncJid → EncType × String) (gc didBytes : String) (btn : Option String)
    (u msgId : String) (addAttrs : List (String × AttrV)) :
    (relayMessage ⟨meId, M, devs, encrypt, gc, didBytes, btn⟩ ⟨u, "s.whatsapp.net", none⟩
        ⟨msgId, some p, addAttrs⟩).usyncQueried = false
      ∧ toNodeJids (relayMessage ⟨meId, M, devs, encrypt, gc, didBytes, btn⟩
          ⟨u, "s.whatsapp.net", none⟩ ⟨msgId, some p, addAttrs⟩).stanza
        = [jidEncode p.user "s.whatsapp.net" p.device]
      ∧ attrLookup (relayMessage ⟨meId, M, devs, encrypt, gc, didBytes, btn⟩
          ⟨u, "s.whatsapp.net", none⟩ ⟨msgId, some p, addAttrs⟩).stanza.attrs "device_fanout"
        = some (AttrV.s "false") := by
  refine ⟨rfl, ?_, ?_⟩
  · show toNodeJids (assembleMessageStanza _ _
        ((createParticipantNodes encrypt (([(⟨p.user, p.device⟩ : JidWithDevice)].filter
            (fun x => x.user == meId.user)).map encDeviceJid)).1
          ++ (createParticipantNodes encrypt (([(⟨p.user, p.device⟩ : JidWithDevice)].filter
            (fun x => x.user != meId.user)).map encDeviceJid)).1) _ _ _) = _
    rw [cpn_append]
    rw [toNodeJids_assemble _ ([] : List BNode) rfl]
    exact filter_split_singleton ⟨p.user, p.device⟩ meId.user
  · show attrLookup (stanzaAttrs msgId (attrsSet addAttrs "device_fanout" (AttrV.s "false"))
        (some p) (jidEncode u "s.whatsapp.net" none) meId) "device_fanout" = _
    simp only [stanzaAttrs]
    cases hq : (p.user == meId.user) with
    | true =>
      rw [if_pos rfl]
      exact (assocLookup_set_ne _ _ _ _ (by decide)).trans
        ((assocLookup_set_ne _ _ _ _ (by decide)).trans (attrLookup_base_fanout msgId addAttrs))
    | false =>
      rw [if_neg (by decide : ¬(false = true))]
      exact (assocLookup_set_ne _ _ _ _ (by decide)).trans (attrLookup_base_fanout msgId addAttrs)

theorem relayMessage_group_noPart (env : RelayEnv) (u msgId : String)
    (addAttrs : List (String × AttrV)) :
    (relayMessage env ⟨u, "g.us", none⟩ ⟨msgId, none, addAttrs⟩).senderKeyMemoryStored
        = some (env.usyncDevices.foldl (senderKeyFoldStep false)
            ([], env.storedSenderKeyMemory)).2
      ∧ toNodeJids (relayMessage env ⟨u, "g.us", none⟩ ⟨msgId, none, addAttrs⟩).stanza
        = (env.usyncDevices.foldl (senderKeyFoldStep false)
            ([], env.storedSenderKeyMemory)).1 := by
  refine ⟨rfl, ?_⟩
  exact toNodeJids_assemble _ [BNode.mk "enc" [("v", AttrV.s "2"), ("type", AttrV.s "skmsg")]
      none (some env.groupCiphertext)] rfl env.encrypt _ _ _ _

/-- The sender-key memory persisted by a first group send (no participant)
that starts from an empty `sender-key-memory` entry and fans out to the
devices `D`. -/
def firstSendMemory (gUser : String) (D : List JidWithDevice) (meId : EncJid)
    (enc1 : EncJid → EncType × String) (gc1 didBytes1 : String) (btn1 : Option String)
    (msgId1 : String) (a1 : List (String × AttrV)) : List EncJid :=
  (relayMessage ⟨meId, [], D, enc1, gc1, didBytes1, btn1⟩ ⟨gUser, "g.us", none⟩
    ⟨msgId1, none, a1⟩).senderKeyMemoryStored.getD []

theorem mem_firstSendMemory (gUser : String) (D : List JidWithDevice) (meId : EncJid)
    (enc1 : EncJid → EncType × String) (gc1 didBytes1 : String) (btn1 : Option String)
    (msgId1 : String) (a1 : List (String × AttrV)) (j : EncJid) :
    j ∈ firstSendMemory gUser D meId enc1 gc1 didBytes1 btn1 msgId1 a1
      ↔ j ∈ D.map encDeviceJid := by
  unfold firstSendMemory
  rw [(relayMessage_group_noPart ⟨meId, [], D, enc1, gc1, didBytes1, btn1⟩ gUser msgId1 a1).1]
  rw [Option.getD_some]
  rw [(senderKeyFold_spec D [] [] j).2]
  simp

/-- C1: for a group relay without a participant, after a first send that
distributed the sender key to the devices `D` (recorded in sender-key-memory
for the group), a second relay with device set `Dp` produces per-device
distribution nodes exactly for the encoded devices of `Dp` not in `D`
(no node at all when every device of `Dp` is in `D`), and persists a
sender-key-memory containing exactly the devices of `D ∪ Dp`. -/
theorem sender_key_economy (gUser : String) (D Dp : List JidWithDevice) (meId : EncJid)
    (enc1 enc2 : EncJid → EncType × String) (gc1 gc2 didBytes1 didBytes2 : String)
    (btn1 btn2 : Option String) (msgId1 msgId2 : String) (a1 a2 : List (String × AttrV)) :
    (∀ j, j ∈ toNodeJids (relayMessage
          ⟨meId, firstSendMemory gUser D meId enc1 gc1 didBytes1 btn1 msgId1 a1,
            Dp, enc2, gc2, didBytes2, btn2⟩ ⟨gUser, "g.us", none⟩ ⟨msgId2, none, a2⟩).stanza
        ↔ j ∈ Dp.map encDeviceJid ∧ j ∉ D.map encDeviceJid)
      ∧ (toNodeJids (relayMessage
            ⟨meId, firstSendMemory gUser D meId enc1 gc1 didBytes1 btn1 msgId1 a1,
              Dp, enc2, gc2, didBytes2, btn2⟩ ⟨gUser, "g.us", none⟩ ⟨msgId2, none, a2⟩).stanza = []
          ↔ ∀ j ∈ Dp.map encDeviceJid, j ∈ D.map encDeviceJid)
      ∧ (∀ j, j ∈ ((relayMessage
            ⟨meId, firstSendMemory gUser D meId enc1 gc1 didBytes1 btn1 msgId1 a1,
              Dp, enc2, gc2, didBytes2, btn2⟩ ⟨gUser, "g.us", none⟩
            ⟨msgId2, none, a2⟩).senderKeyMemoryStored.getD [])
          ↔ j ∈ D.map encDeviceJid ∨ j ∈ Dp.map encDeviceJid) := by
  have hparts := relayMessage_group_noPart
    ⟨meId, firstSendMemory gUser D meId enc1 gc1 didBytes1 btn1 msgId1 a1,
      Dp, enc2, gc2, didBytes2, btn2⟩ gUser msgId2 a2
  have hmem := fun j => mem_firstSendMemory gUser D meId enc1 gc1 didBytes1 btn1 msgId1 a1 j
  have h1 : ∀ j, j ∈ toNodeJids (relayMessage
        ⟨meId, firstSendMemory gUser D meId enc1 gc1 didBytes1 btn1 msgId1 a1,
          Dp, enc2, gc2, didBytes2, btn2⟩ ⟨gUser, "g.us", none⟩ ⟨msgId2, none, a2⟩).stanza
      ↔ j ∈ Dp.map encDeviceJid ∧ j ∉ D.map encDeviceJid := by
    intro j
    rw [hparts.2]
    rw [(senderKeyFold_spec Dp []
      (firstSendMemory gUser D meId enc1 gc1 didBytes1 btn1 msgId1 a1) j).1]
    rw [hmem j]
    simp [and_comm]
  refine ⟨h1, ?_, ?_⟩
  · rw [List.eq_nil_iff_forall_not_mem]
    constructor
    · intro h j hj
      by_contra hnot
      exact h j ((h1 j).mpr ⟨hj, hnot⟩)
    · intro h j hj
      obtain ⟨hj1, hj2⟩ := (h1 j).mp hj
      exact hj2 (h j hj1)
  · intro j
    rw [hparts.1, Option.getD_some]
    rw [(senderKeyFold_spec Dp []
      (firstSendMemory gUser D meId enc1 gc1 didBytes1 btn1 msgId1 a1) j).2]
    rw [hmem j]

/-! ## C4: device fanout completeness for 1-1 sends -/

/-- A `device` entry of a USync response's `device-list`: numeric `id` and,
when flagged, a `key-index` attribute. -/
def mkDeviceNode (e : Nat × Bool) : BNode :=
  .mk "device" ([("id", AttrV.n e.1)]
    ++ (if e.2 then [("key-index", AttrV.s "1")] else [])) none none

/-- A `user` item of a USync response: its jid plus
`devices → device-list → device*`. -/
def mkUserItem (u : String × List (Nat × Bool)) : BNode :=
  .mk "user" [("jid", AttrV.j (jidEncode u.1 "s.whatsapp.net" none))]
    (some [.mk "devices" [] (some [.mk "device-list" [] (some (u.2.map mkDeviceNode)) none])
      none]) none

/-- A whole USync query response (the `iq` result): one user item per queried
user, each with its listed device entries `(device id, has key-index)`. -/
def mkUsyncResponse (users : List (String × List (Nat × Bool))) : BNode :=
  .mk "iq" [] (some [.mk "usync" []
    (some [.mk "query" [] (some []) none,
      .mk "list" [] (some (users.map mkUserItem)) none]) none]) none

theorem keep_mkDeviceNode (meU : String) (md : Nat) (u1 : String) (e : Nat × Bool) :
    keepDeviceEntry true meU (some md) u1 (mkDeviceNode e)
      = (if (e.1 != 0) && ((meU != u1) || (md != e.1)) && ((e.1 == 0) || e.2)
        then some ⟨u1, some e.1⟩ else none) := by
  obtain ⟨d, ki⟩ := e
  cases ki <;> rfl

theorem extract_mkUsyncResponse_cons (u1 : String) (entries : List (Nat × Bool))
    (us : List (String × List (Nat × Bool))) (meU srv : String) (md : Option Nat) :
    extractDeviceJids (mkUsyncResponse ((u1, entries) :: us)) ⟨meU, srv, md⟩ true
      = (entries.map mkDeviceNode).filterMap (keepDeviceEntry true meU md u1)
        ++ extractDeviceJids (mkUsyncResponse us) ⟨meU, srv, md⟩ true := by
  simp only [extractDeviceJids, mkUsyncResponse, BNode.children, Option.getD_some,
    List.flatMap_cons, List.flatMap_nil, List.append_nil, getBinaryNodeChild,
    List.find?_cons_of_neg, List.map_cons, mkUserItem, BNode.attrs, attrLookup]
  rfl

theorem extract_mkUsyncResponse (users : List (String × List (Nat × Bool)))
    (meU srv : String) (md : Nat) :
    extractDeviceJids (mkUsyncResponse users) ⟨meU, srv, some md⟩ true
      = users.flatMap (fun u => u.2.filterMap (fun e =>
          if (e.1 != 0) && ((meU != u.1) || (md != e.1)) && ((e.1 == 0) || e.2)
          then some ⟨u.1, some e.1⟩ else none)) := by
  induction users with
  | nil => rfl
  | cons u us ih =>
    obtain ⟨u1, entries⟩ := u
    rw [extract_mkUsyncResponse_cons, ih, List.flatMap_cons]
    congr 1
    rw [List.filterMap_map]
    exact List.filterMap_congr (fun e _ => keep_mkDeviceNode meU md u1 e)

theorem mem_filter_partition (l : List JidWithDevice) (meUser : String) (j : EncJid) :
    (j ∈ ((l.filter (fun d => d.user == meUser)).map encDeviceJid)
        ++ ((l.filter (fun d => d.user != meUser)).map encDeviceJid))
      ↔ j ∈ l.map encDeviceJid := by
  simp only [List.mem_append, List.mem_map, List.mem_filter]
  constructor
  · rintro (⟨d, ⟨hd, _⟩, he⟩ | ⟨d, ⟨hd, _⟩, he⟩) <;> exact ⟨d, hd, he⟩
  · rintro ⟨d, hd, he⟩
    by_cases hu : (d.user == meUser) = true
    · exact Or.inl ⟨d, ⟨hd, hu⟩, he⟩
    · refine Or.inr ⟨d, ⟨hd, ?_⟩, he⟩
      simp only [bne, hu, Bool.not_false]

theorem relay_oneToOne_toNodeJids (meUser meSrv : String) (meDev : Option Nat)
    (mem : List EncJid) (usync : List JidWithDevice) (encrypt : EncJid → EncType × String)
    (gc didBytes : String) (btn : Option String) (u msgId : String)
    (addAttrs : List (String × AttrV)) :
    toNodeJids (relayMessage ⟨⟨meUser, meSrv, meDev⟩, mem, usync, encrypt, gc, didBytes, btn⟩
        ⟨u, "s.whatsapp.net", none⟩ ⟨msgId, none, addAttrs⟩).stanza
      = (((⟨u, none⟩ : JidWithDevice) :: ⟨meUser, none⟩ :: usync).filter
          (fun d => d.user == meUser)).map encDeviceJid
        ++ (((⟨u, none⟩ : JidWithDevice) :: ⟨meUser, none⟩ :: usync).filter
          (fun d => d.user != meUser)).map encDeviceJid := by
  show toNodeJids (assembleMessageStanza _ []
      ((createParticipantNodes encrypt
          ((((⟨u, none⟩ : JidWithDevice) :: ⟨meUser, none⟩ :: usync).filter
            (fun d => d.user == meUser)).map encDeviceJid)).1
        ++ (createParticipantNodes encrypt
          ((((⟨u, none⟩ : JidWithDevice) :: ⟨meUser, none⟩ :: usync).filter
            (fun d => d.user != meUser)).map encDeviceJid)).1)
      _ _ _) = _
  rw [cpn_append, toNodeJids_assemble _ ([] : List BNode) rfl]

/-- Claim C4's recipient set, following the claim's words (not the code): the
union of the sender's devices and the peer's devices as reported by USync
device discovery, minus the sending device itself. A device listed with id 0
(the primary) is addressed as the bare `user@s.whatsapp.net` jid. -/
def claimedOneToOneRecipients (peerUser meUser : String)
    (peerEntries meEntries : List (Nat × Bool)) (meDevice : Nat) : List EncJid :=
  ((peerEntries.map (fun e => jidEncode peerUser "s.whatsapp.net"
      (if e.1 == 0 then none else some e.1)))
    ++ (meEntries.map (fun e => jidEncode meUser "s.whatsapp.net"
      (if e.1 == 0 then none else some e.1)))).filter
    (fun j => j != jidEncode meUser "s.whatsapp.net" (some meDevice))

theorem usync_filterMap_mem (uu meU : String) (md : Nat) (entries : List (Nat × Bool))
    (d : JidWithDevice) :
    d ∈ entries.filterMap (fun e =>
        if (e.1 != 0) && ((meU != uu) || (md != e.1)) && ((e.1 == 0) || e.2)
        then some (⟨uu, some e.1⟩ : JidWithDevice) else none)
      ↔ ∃ e ∈ entries, (e.1 ≠ 0 ∧ (meU ≠ uu ∨ md ≠ e.1) ∧ (e.1 = 0 ∨ e.2 = true))
          ∧ d = ⟨uu, some e.1⟩ := by
  rw [List.mem_filterMap]
  constructor
  · rintro ⟨e, he, hfe⟩
    by_cases hc : ((e.1 != 0) && ((meU != uu) || (md != e.1)) && ((e.1 == 0) || e.2)) = true
    · rw [if_pos hc] at hfe
      obtain rfl := Option.some.inj hfe
      simp only [Bool.and_eq_true, Bool.or_eq_true, bne_iff_ne, beq_iff_eq, ne_eq] at hc
      exact ⟨e, he, ⟨hc.1.1, hc.1.2, hc.2⟩, rfl⟩
    · rw [if_neg hc] at hfe
      exact absurd hfe (by simp)
  · rintro ⟨e, he, ⟨h1, h2, h3⟩, rfl⟩
    refine ⟨e, he, ?_⟩
    rw [if_pos ?_]
    simp only [Bool.and_eq_true, Bool.or_eq_true, bne_iff_ne, beq_iff_eq, ne_eq]
    exact ⟨⟨h1, h2⟩, h3⟩

theorem usync_filterMap_shape (uu meU : String) (md : Nat) (entries : List (Nat × Bool)) :
    ∀ d ∈ entries.filterMap (fun e =>
        if (e.1 != 0) && ((meU != uu) || (md != e.1)) && ((e.1 == 0) || e.2)
        then some (⟨uu, some e.1⟩ : JidWithDevice) else none),
      d.user = uu ∧ ∃ k, k ≠ 0 ∧ d.device = some k ∧ (meU ≠ uu ∨ md ≠ k) := by
  intro d hd
  obtain ⟨e, _, ⟨h1, h2, _⟩, rfl⟩ := (usync_filterMap_mem uu meU md entries d).mp hd
  exact ⟨rfl, e.1, h1, rfl, h2⟩

theorem filterMap_ite_eq_filter_map {α β : Type} (p : α → Bool) (g : α → β) (l : List α) :
    l.filterMap (fun a => if p a then some (g a) else none) = (l.filter p).map g := by
  induction l with
  | nil => rfl
  | cons a t ih =>
    by_cases h : p a = true
    · simp [List.filterMap_cons, List.filter_cons, h, ih]
    · simp [List.filterMap_cons, List.filter_cons, h, ih]

theorem usync_pair_extract (peerUser meUser : String) (md : Nat)
    (peerEntries meEntries : List (Nat × Bool)) :
    extractDeviceJids (mkUsyncResponse [(peerUser, peerEntries), (meUser, meEntries)])
        ⟨meUser, "s.whatsapp.net", some md⟩ true
      = peerEntries.filterMap (fun e =>
          if (e.1 != 0) && ((meUser != peerUser) || (md != e.1)) && ((e.1 == 0) || e.2)
          then some (⟨peerUser, some e.1⟩ : JidWithDevice) else none)
        ++ meEntries.filterMap (fun e =>
          if (e.1 != 0) && ((meUser != meUser) || (md != e.1)) && ((e.1 == 0) || e.2)
          then some (⟨meUser, some e.1⟩ : JidWithDevice) else none) := by
  rw [extract_mkUsyncResponse]
  simp only [List.flatMap_cons, List.flatMap_nil, List.append_nil]

theorem fanout_mem_characterization (peerUser meUser : String) (md : Nat)
    (peerEntries meEntries : List (Nat × Bool)) (j : EncJid)
    (husers : peerUser ≠ meUser) (hmd : md ≠ 0)
    (hpeer0 : 0 ∈ peerEntries.map Prod.fst) (hme0 : 0 ∈ meEntries.map Prod.fst)
    (hkiP : ∀ e ∈ peerEntries, e.1 ≠ 0 → e.2 = true)
    (hkiM : ∀ e ∈ meEntries, e.1 ≠ 0 → e.2 = true) :
    (j = encDeviceJid ⟨peerUser, none⟩ ∨ j = encDeviceJid ⟨meUser, none⟩
        ∨ j ∈ (peerEntries.filterMap (fun e =>
            if (e.1 != 0) && ((meUser != peerUser) || (md != e.1)) && ((e.1 == 0) || e.2)
            then some (⟨peerUser, some e.1⟩ : JidWithDevice) else none)
          ++ meEntries.filterMap (fun e =>
            if (e.1 != 0) && ((meUser != meUser) || (md != e.1)) && ((e.1 == 0) || e.2)
            then some (⟨meUser, some e.1⟩ : JidWithDevice) else none)).map encDeviceJid)
      ↔ j ∈ claimedOneToOneRecipients peerUser meUser peerEntries meEntries md := by
  have hclaim : j ∈ claimedOneToOneRecipients peerUser meUser peerEntries meEntries md
      ↔ ((∃ e ∈ peerEntries,
            jidEncode peerUser "s.whatsapp.net" (if e.1 == 0 then none else some e.1) = j)
          ∨ (∃ e ∈ meEntries,
            jidEncode meUser "s.whatsapp.net" (if e.1 == 0 then none else some e.1) = j))
        ∧ j ≠ jidEncode meUser "s.whatsapp.net" (some md) := by
    unfold claimedOneToOneRecipients
    rw [List.mem_filter]
    simp only [List.mem_append, List.mem_map, bne_iff_ne]
  have hus : j ∈ (peerEntries.filterMap (fun e =>
          if (e.1 != 0) && ((meUser != peerUser) || (md != e.1)) && ((e.1 == 0) || e.2)
          then some (⟨peerUser, some e.1⟩ : JidWithDevice) else none)
        ++ meEntries.filterMap (fun e =>
          if (e.1 != 0) && ((meUser != meUser) || (md != e.1)) && ((e.1 == 0) || e.2)
          then some (⟨meUser, some e.1⟩ : JidWithDevice) else none)).map encDeviceJid
      ↔ (∃ e ∈ peerEntries, (e.1 ≠ 0 ∧ (meUser ≠ peerUser ∨ md ≠ e.1) ∧ (e.1 = 0 ∨ e.2 = true))
            ∧ j = (⟨peerUser, "s.whatsapp.net", some e.1⟩ : EncJid))
        ∨ (∃ e ∈ meEntries, (e.1 ≠ 0 ∧ (meUser ≠ meUser ∨ md ≠ e.1) ∧ (e.1 = 0 ∨ e.2 = true))
            ∧ j = (⟨meUser, "s.whatsapp.net", some e.1⟩ : EncJid)) := by
    rw [List.map_append]
    simp only [List.mem_append, List.mem_map]
    constructor
    · rintro (⟨d, hd, rfl⟩ | ⟨d, hd, rfl⟩)
      · obtain ⟨e, he, hcond, rfl⟩ := (usync_filterMap_mem peerUser meUser md peerEntries d).mp hd
        exact Or.inl ⟨e, he, hcond, rfl⟩
      · obtain ⟨e, he, hcond, rfl⟩ := (usync_filterMap_mem meUser meUser md meEntries d).mp hd
        exact Or.inr ⟨e, he, hcond, rfl⟩
    · rintro (⟨e, he, hcond, rfl⟩ | ⟨e, he, hcond, rfl⟩)
      · exact Or.inl ⟨⟨peerUser, some e.1⟩,
          (usync_filterMap_mem peerUser meUser md peerEntries _).mpr ⟨e, he, hcond, rfl⟩, rfl⟩
      · exact Or.inr ⟨⟨meUser, some e.1⟩,
          (usync_filterMap_mem meUser meUser md meEntries _).mpr ⟨e, he, hcond, rfl⟩, rfl⟩
  rw [hclaim, hus]
  obtain ⟨ep, hep, hep0⟩ : ∃ e ∈ peerEntries, e.1 = 0 := by
    simpa [List.mem_map] using hpeer0
  obtain ⟨em, hem, hem0⟩ : ∃ e ∈ meEntries, e.1 = 0 := by
    simpa [List.mem_map] using hme0
  constructor
  · rintro (rfl | rfl | (⟨e, he, hcond, rfl⟩ | ⟨e, he, hcond, rfl⟩))
    · refine ⟨Or.inl ⟨ep, hep, ?_⟩, ?_⟩
      · simp [hep0, jidEncode, encDeviceJid]
      · simp [jidEncode, encDeviceJid, EncJid.mk.injEq]
    · refine ⟨Or.inr ⟨em, hem, ?_⟩, ?_⟩
      · simp [hem0, jidEncode, encDeviceJid]
      · simp [jidEncode, encDeviceJid, EncJid.mk.injEq]
    · refine ⟨Or.inl ⟨e, he, ?_⟩, ?_⟩
      · simp [beq_eq_false_iff_ne.mpr hcond.1, jidEncode]
      · simp only [ne_eq, jidEncode, EncJid.mk.injEq]
        rintro ⟨hq, -, -⟩
        exact husers hq
    · rcases hcond.2.1 with h' | h'
      · exact absurd rfl h'
      · refine ⟨Or.inr ⟨e, he, ?_⟩, ?_⟩
        · simp [beq_eq_false_iff_ne.mpr hcond.1, jidEncode]
        · simp only [ne_eq, jidEncode, EncJid.mk.injEq, Option.some.injEq]
          rintro ⟨-, -, hq⟩
          exact h' hq.symm
  · rintro ⟨(⟨e, he, rfl⟩ | ⟨e, he, rfl⟩), hne⟩
    · by_cases h0 : e.1 = 0
      · left
        simp [h0, jidEncode, encDeviceJid]
      · refine Or.inr (Or.inr (Or.inl ⟨e, he, ⟨h0, Or.inl (Ne.symm husers),
          Or.inr (hkiP e he h0)⟩, ?_⟩))
        simp [beq_eq_false_iff_ne.mpr h0, jidEncode]
    · by_cases h0 : e.1 = 0
      · right
        left
        simp [h0, jidEncode, encDeviceJid]
      · have hq : md ≠ e.1 := by
          intro hq
          apply hne
          simp [jidEncode, beq_eq_false_iff_ne.mpr h0, hq]
        refine Or.inr (Or.inr (Or.inr ⟨e, he, ⟨h0, Or.inr hq,
          Or.inr (hkiM e he h0)⟩, ?_⟩))
        simp [beq_eq_false_iff_ne.mpr h0, jidEncode]

theorem nodup_mapped_side (uu meU : String) (md : Nat) (entries : List (Nat × Bool))
    (hnd : (entries.map Prod.fst).Nodup) :
    ((entries.filterMap (fun e =>
        if (e.1 != 0) && ((meU != uu) || (md != e.1)) && ((e.1 == 0) || e.2)
        then some (⟨uu, some e.1⟩ : JidWithDevice) else none)).map encDeviceJid).Nodup := by
  rw [List.map_filterMap]
  have hfe : (fun e : Nat × Bool =>
        ((if (e.1 != 0) && ((meU != uu) || (md != e.1)) && ((e.1 == 0) || e.2)
          then some (⟨uu, some e.1⟩ : JidWithDevice) else none).map encDeviceJid))
      = (fun e : Nat × Bool =>
        if ((e.1 != 0) && ((meU != uu) || (md != e.1)) && ((e.1 == 0) || e.2))
        then some ((⟨uu, "s.whatsapp.net", some e.1⟩ : EncJid)) else none) := by
    funext e
    by_cases h : ((e.1 != 0) && ((meU != uu) || (md != e.1)) && ((e.1 == 0) || e.2)) = true
    · rw [if_pos h, if_pos h]
      rfl
    · rw [if_neg h, if_neg h]
      rfl
  rw [hfe, filterMap_ite_eq_filter_map]
  apply List.Nodup.map_on
  · intro x hx y hy hxy
    have hx1 : x.1 = y.1 := by
      simpa [EncJid.mk.injEq] using hxy
    exact List.inj_on_of_nodup_map hnd (List.mem_of_mem_filter hx)
      (List.mem_of_mem_filter hy) hx1
  · exact List.Nodup.filter _ (List.Nodup.of_map _ hnd)

theorem nodup_side_with_primary (uu meU : String) (md : Nat) (entries : List (Nat × Bool))
    (hnd : (entries.map Prod.fst).Nodup) :
    (encDeviceJid ⟨uu, none⟩ :: (entries.filterMap (fun e =>
        if (e.1 != 0) && ((meU != uu) || (md != e.1)) && ((e.1 == 0) || e.2)
        then some (⟨uu, some e.1⟩ : JidWithDevice) else none)).map encDeviceJid).Nodup := by
  rw [List.nodup_cons]
  refine ⟨?_, nodup_mapped_side uu meU md entries hnd⟩
  intro hmem
  obtain ⟨d, hd, heq⟩ := List.mem_map.mp hmem
  obtain ⟨-, k, -, hdev, -⟩ := usync_filterMap_shape uu meU md entries d hd
  have h2 : d.device = (none : Option Nat) := congrArg EncJid.device heq
  rw [hdev] at h2
  exact Option.noConfusion h2

theorem fanout_filter_eval (peerUser meUser : String) (md : Nat)
    (peerEntries meEntries : List (Nat × Bool)) (husers : peerUser ≠ meUser) :
    (((⟨peerUser, none⟩ : JidWithDevice) :: ⟨meUser, none⟩
        :: (peerEntries.filterMap (fun e =>
              if (e.1 != 0) && ((meUser != peerUser) || (md != e.1)) && ((e.1 == 0) || e.2)
              then some (⟨peerUser, some e.1⟩ : JidWithDevice) else none)
          ++ meEntries.filterMap (fun e =>
              if (e.1 != 0) && ((meUser != meUser) || (md != e.1)) && ((e.1 == 0) || e.2)
              then some (⟨meUser, some e.1⟩ : JidWithDevice) else none))).filter
        (fun d => d.user == meUser)
        = ⟨meUser, none⟩ :: meEntries.filterMap (fun e =>
            if (e.1 != 0) && ((meUser != meUser) || (md != e.1)) && ((e.1 == 0) || e.2)
            then some (⟨meUser, some e.1⟩ : JidWithDevice) else none))
      ∧ (((⟨peerUser, none⟩ : JidWithDevice) :: ⟨meUser, none⟩
        :: (peerEntries.filterMap (fun e =>
              if (e.1 != 0) && ((meUser != peerUser) || (md != e.1)) && ((e.1 == 0) || e.2)
              then some (⟨peerUser, some e.1⟩ : JidWithDevice) else none)
          ++ meEntries.filterMap (fun e =>
              if (e.1 != 0) && ((meUser != meUser) || (md != e.1)) && ((e.1 == 0) || e.2)
              then some (⟨meUser, some e.1⟩ : JidWithDevice) else none))).filter
        (fun d => d.user != meUser)
        = ⟨peerUser, none⟩ :: peerEntries.filterMap (fun e =>
            if (e.1 != 0) && ((meUser != peerUser) || (md != e.1)) && ((e.1 == 0) || e.2)
            then some (⟨peerUser, some e.1⟩ : JidWithDevice) else none)) := by
  have hbeq : (peerUser == meUser) = false := beq_eq_false_iff_ne.mpr husers
  have hallP : ∀ d ∈ peerEntries.filterMap (fun e =>
      if (e.1 != 0) && ((meUser != peerUser) || (md != e.1)) && ((e.1 == 0) || e.2)
      then some (⟨peerUser, some e.1⟩ : JidWithDevice) else none), d.user = peerUser :=
    fun d hd => (usync_filterMap_shape peerUser meUser md peerEntries d hd).1
  have hallM : ∀ d ∈ meEntries.filterMap (fun e =>
      if (e.1 != 0) && ((meUser != meUser) || (md != e.1)) && ((e.1 == 0) || e.2)
      then some (⟨meUser, some e.1⟩ : JidWithDevice) else none), d.user = meUser :=
    fun d hd => (usync_filterMap_shape meUser meUser md meEntries d hd).1
  constructor
  · rw [List.filter_cons_of_neg (by simp [hbeq]), List.filter_cons_of_pos (by simp),
      List.filter_append]
    rw [List.filter_eq_nil_iff.mpr, List.filter_eq_self.mpr, List.nil_append]
    · intro d hd
      simp [hallM d hd]
    · intro d hd
      simp [hallP d hd, hbeq]
  · rw [List.filter_cons_of_pos (by simp [bne, hbeq]), List.filter_cons_of_neg (by simp [bne]),
      List.filter_append]
    rw [List.filter_eq_self.mpr, List.filter_eq_nil_iff.mpr, List.append_nil]
    · intro d hd
      simp [bne, hallM d hd]
    · intro d hd
      simp [bne, hallP d hd, hbeq]

set_option maxHeartbeats 1000000 in
/-- C4: for a 1-1 relay without a participant, over a well-formed USync
response for `[meId, jid]` (both users listed, each device list containing
the primary device 0, key-index present on non-zero devices, no duplicate
device ids, the sending device non-zero), the set of per-device `to` nodes
equals the union of the sender's and the peer's listed devices minus the
sending device itself, with no duplicate recipient nodes. -/
theorem device_fanout_completeness (peerUser meUser : String) (md : Nat)
    (peerEntries meEntries : List (Nat × Bool)) (encrypt : EncJid → EncType × String)
    (gc didBytes : String) (btn : Option String) (msgId : String)
    (addAttrs : List (String × AttrV))
    (husers : peerUser ≠ meUser) (hmd : md ≠ 0)
    (hpeer0 : 0 ∈ peerEntries.map Prod.fst) (hme0 : 0 ∈ meEntries.map Prod.fst)
    (hkiP : ∀ e ∈ peerEntries, e.1 ≠ 0 → e.2 = true)
    (hkiM : ∀ e ∈ meEntries, e.1 ≠ 0 → e.2 = true)
    (hndP : (peerEntries.map Prod.fst).Nodup) (hndM : (meEntries.map Prod.fst).Nodup) :
    (∀ j, j ∈ toNodeJids (relayMessage
          ⟨⟨meUser, "s.whatsapp.net", some md⟩, [],
            extractDeviceJids (mkUsyncResponse [(peerUser, peerEntries), (meUser, meEntries)])
              ⟨meUser, "s.whatsapp.net", some md⟩ true,
            encrypt, gc, didBytes, btn⟩
          ⟨peerUser, "s.whatsapp.net", none⟩ ⟨msgId, none, addAttrs⟩).stanza
        ↔ j ∈ claimedOneToOneRecipients peerUser meUser peerEntries meEntries md)
      ∧ (toNodeJids (relayMessage
          ⟨⟨meUser, "s.whatsapp.net", some md⟩, [],
            extractDeviceJids (mkUsyncResponse [(peerUser, peerEntries), (meUser, meEntries)])
              ⟨meUser, "s.whatsapp.net", some md⟩ true,
            encrypt, gc, didBytes, btn⟩
          ⟨peerUser, "s.whatsapp.net", none⟩ ⟨msgId, none, addAttrs⟩).stanza).Nodup := by
  have hrw : toNodeJids (relayMessage
        ⟨⟨meUser, "s.whatsapp.net", some md⟩, [],
          extractDeviceJids (mkUsyncResponse [(peerUser, peerEntries), (meUser, meEntries)])
            ⟨meUser, "s.whatsapp.net", some md⟩ true,
          encrypt, gc, didBytes, btn⟩
        ⟨peerUser, "s.whatsapp.net", none⟩ ⟨msgId, none, addAttrs⟩).stanza
      = ((⟨meUser, none⟩ : JidWithDevice) :: meEntries.filterMap (fun e =>
            if (e.1 != 0) && ((meUser != meUser) || (md != e.1)) && ((e.1 == 0) || e.2)
            then some (⟨meUser, some e.1⟩ : JidWithDevice) else none)).map encDeviceJid
        ++ ((⟨peerUser, none⟩ : JidWithDevice) :: peerEntries.filterMap (fun e =>
            if (e.1 != 0) && ((meUser != peerUser) || (md != e.1)) && ((e.1 == 0) || e.2)
            then some (⟨peerUser, some e.1⟩ : JidWithDevice) else none)).map encDeviceJid := by
    rw [relay_oneToOne_toNodeJids, usync_pair_extract,
      (fanout_filter_eval peerUser meUser md peerEntries meEntries husers).1,
      (fanout_filter_eval peerUser meUser md peerEntries meEntries husers).2]
  refine ⟨?_, ?_⟩
  · intro j
    rw [hrw]
    have hchar := fanout_mem_characterization peerUser meUser md peerEntries meEntries j
      husers hmd hpeer0 hme0 hkiP hkiM
    rw [List.map_append, List.mem_append] at hchar
    rw [← hchar]
    simp only [List.map_cons, List.mem_append, List.mem_cons]
    constructor
    · rintro ((h | h) | (h | h))
      · exact Or.inr (Or.inl h)
      · exact Or.inr (Or.inr (Or.inr h))
      · exact Or.inl h
      · exact Or.inr (Or.inr (Or.inl h))
    · rintro (h | h | (h | h))
      · exact Or.inr (Or.inl h)
      · exact Or.inl (Or.inl h)
      · exact Or.inr (Or.inr h)
      · exact Or.inl (Or.inr h)
  · rw [hrw, List.nodup_append]
    refine ⟨?_, ?_, ?_⟩
    · rw [List.map_cons]
      exact nodup_side_with_primary meUser meUser md meEntries hndM
    · rw [List.map_cons]
      exact nodup_side_with_primary peerUser meUser md peerEntries hndP
    · intro a ha hb
      have haU : a.user = meUser := by
        rcases List.mem_cons.mp (by simpa only [List.map_cons] using ha) with rfl | hm
        · rfl
        · obtain ⟨d, hd, rfl⟩ := List.mem_map.mp hm
          exact (usync_filterMap_shape meUser meUser md meEntries d hd).1
      have hbU : a.user = peerUser := by
        rcases List.mem_cons.mp (by simpa only [List.map_cons] using hb) with rfl | hm
        · rfl
        · obtain ⟨d, hd, rfl⟩ := List.mem_map.mp hm
          exact (usync_filterMap_shape peerUser meUser md peerEntries d hd).1
      exact husers (hbU.symm.trans haU)

/-- Witness for `device_fanout_completeness`: peer `alice` with devices
`{0, 2}`, me `bob:1` with devices `{0, 1, 3}`. -/
theorem device_fanout_completeness_witness :
    (("alice" : String) ≠ "bob" ∧ (1 : Nat) ≠ 0
      ∧ 0 ∈ ([(0, false), (2, true)] : List (Nat × Bool)).map Prod.fst
      ∧ 0 ∈ ([(0, true), (1, true), (3, true)] : List (Nat × Bool)).map Prod.fst
      ∧ (∀ e ∈ ([(0, false), (2, true)] : List (Nat × Bool)), e.1 ≠ 0 → e.2 = true)
      ∧ (∀ e ∈ ([(0, true), (1, true), (3, true)] : List (Nat × Bool)), e.1 ≠ 0 → e.2 = true)
      ∧ (([(0, false), (2, true)] : List (Nat × Bool)).map Prod.fst).Nodup
      ∧ (([(0, true), (1, true), (3, true)] : List (Nat × Bool)).map Prod.fst).Nodup)
    ∧ ((∀ j, j ∈ toNodeJids (relayMessage
          ⟨⟨"bob", "s.whatsapp.net", some 1⟩, [],
            extractDeviceJids (mkUsyncResponse
              [("alice", [(0, false), (2, true)]), ("bob", [(0, true), (1, true), (3, true)])])
              ⟨"bob", "s.whatsapp.net", some 1⟩ true,
            (fun _ => (EncType.msg, "ct")), "g", "d", none⟩
          ⟨"alice", "s.whatsapp.net", none⟩ ⟨"m1", none, []⟩).stanza
        ↔ j ∈ claimedOneToOneRecipients "alice" "bob" [(0, false), (2, true)]
            [(0, true), (1, true), (3, true)] 1)
      ∧ (toNodeJids (relayMessage
          ⟨⟨"bob", "s.whatsapp.net", some 1⟩, [],
            extractDeviceJids (mkUsyncResponse
              [("alice", [(0, false), (2, true)]), ("bob", [(0, true), (1, true), (3, true)])])
              ⟨"bob", "s.whatsapp.net", some 1⟩ true,
            (fun _ => (EncType.msg, "ct")), "g", "d", none⟩
          ⟨"alice", "s.whatsapp.net", none⟩ ⟨"m1", none, []⟩).stanza).Nodup) :=
  ⟨⟨by decide, by decide, by decide, by decide, by decide, by decide, by decide, by decide⟩,
    device_fanout_completeness "alice" "bob" 1 [(0, false), (2, true)]
      [(0, true), (1, true), (3, true)] (fun _ => (EncType.msg, "ct")) "g" "d" none "m1" []
      (by decide) (by decide) (by decide) (by decide) (by decide) (by decide)
      (by decide) (by decide)⟩
